import Mathlib

/-!
Verification development for the retrieval-grounded quiz engine (rag.py).

The grader and the quiz generator of `src/rag.py` are shallowly embedded
here.  Python dynamic values appearing as grader responses / item answers
are modelled by `PyVal`; the external embedding model is modelled by an
oracle parameter `simf : String -> String -> Rat` (the spec treats the
embedding provider as an external capability).  Machine floats are
modelled by exact rationals.
-/

namespace Rag

/-- Python dynamic value, as used for quiz answers and submitted responses
(`None`, booleans, strings). -/
inductive PyVal where
  | none
  | bool (b : Bool)
  | str (s : String)
  deriving DecidableEq, Repr

/-- Python truthiness, `bool(v)`: `None` is falsy, strings are truthy iff
nonempty. -/
def PyVal.truthy : PyVal → Bool
  | .none => false
  | .bool b => b
  | .str s => !s.data.isEmpty

/-- Python `str(v)` for the values the grader can meet. -/
def PyVal.toPyStr : PyVal → String
  | .none => "None"
  | .bool true => "True"
  | .bool false => "False"
  | .str s => s

/-- Python `v.isalpha()`: nonempty and all characters alphabetic (ASCII
model; the corpus vocabulary is ASCII). -/
def pyIsAlpha (s : String) : Bool :=
  !s.data.isEmpty && s.data.all Char.isAlpha

/-- Python `s.upper()` (ASCII model). -/
def upperStr (s : String) : String := String.mk (s.data.map Char.toUpper)

/-- Python `s.lower()` (ASCII model). -/
def lowerStr (s : String) : String := String.mk (s.data.map Char.toLower)

/-- Python `s.strip()`: drop leading and trailing whitespace. -/
def pyStrip (s : String) : String :=
  String.mk
    (((s.data.dropWhile Char.isWhitespace).reverse.dropWhile
        Char.isWhitespace).reverse)

theorem str_eq_empty_iff (s : String) : s = "" ↔ s.data = [] := by
  constructor
  · intro h; subst h; rfl
  · intro h; cases s; simp only at h; subst h; rfl

/-- Floor of a rational as an integer (`Int.fdiv` rounds toward negative
infinity; the denominator of a `Rat` is positive). -/
def ratFloor (x : ℚ) : ℤ := Int.fdiv x.num (x.den : ℤ)

/-- Round a rational to the nearest integer, ties to even — the rounding
used by Python float formatting, modelled on exact rationals. -/
def roundHalfEven (x : ℚ) : ℤ :=
  let f := ratFloor x
  let r : ℚ := x - (f : ℚ)
  if r < 1/2 then f
  else if (1 : ℚ)/2 < r then f + 1
  else if f % 2 = 0 then f else f + 1

/-- Python `f"{x:.2f}"` on the similarity value, modelled on exact
rationals (signed zero of floats is not modelled). -/
def pyFormat2 (x : ℚ) : String :=
  let n := roundHalfEven (100 * x)
  let a := n.natAbs
  (if n < 0 then "-" else "") ++ toString (a / 100) ++ "." ++
    (if a % 100 < 10 then "0" else "") ++ toString (a % 100)

/-- Quiz item type tag (rag.py uses the strings "tf" / "mcq" / "open";
the generator emits exactly these three). -/
inductive QType where
  | tf
  | mcq
  | opn
  deriving DecidableEq, Repr

/-- A quiz item as built by `generate_quiz` and consumed by `grade_quiz`
(dict with keys "type", "q", "answer", "options", "sources"; TF/OPEN items
carry no options, modelled by `[]`). -/
structure QuizItem where
  qtype : QType
  q : String
  answer : PyVal
  options : List String
  sources : List String
  deriving DecidableEq, Repr

/-- One entry of the grader's `details` list. -/
structure GradeDetail where
  question : String
  your_answer : PyVal
  expected : PyVal
  correct : Bool
  sources : List String
  rationale : String
  deriving DecidableEq, Repr

/-- The grader's result dict. -/
structure GradeResult where
  score : Nat
  total : Nat
  details : List GradeDetail
  deriving DecidableEq, Repr

/-- `it.get("answer","")` where the stored answer is a string (the
generator stores strings for MCQ/OPEN answers; on a non-string Python
would raise inside `.isalpha()`/embedding, which is outside the grader's
reachable inputs). -/
def PyVal.getStr : PyVal → String
  | .str s => s
  | _ => ""

/-- Per-item grading of rag.py's `grade_quiz` loop body: returns
(correct, rationale).  `simf` is the external embedding-similarity oracle
(`cosine_sim(embed_texts([ref]), embed_texts([str(resp)]))`). -/
def gradeItem (simf : String → String → ℚ) (it : QuizItem) (resp : PyVal) :
    Bool × String :=
  match it.qtype with
  | .tf =>
      (decide (resp ≠ PyVal.none) && (resp.truthy == it.answer.truthy),
       "True/False comparison")
  | .mcq =>
      let gold := it.answer.getStr
      let mine := if resp = PyVal.none then PyVal.str "" else resp
      if pyIsAlpha gold && decide (gold.length ≤ 4) then
        (decide (pyStrip (upperStr mine.toPyStr) = pyStrip (upperStr gold)),
         "Exact option match")
      else
        (decide (pyStrip mine.toPyStr = pyStrip gold), "Exact option match")
  | .opn =>
      let ref := it.answer.getStr
      let sim : ℚ :=
        if resp = PyVal.none ∨ pyStrip resp.toPyStr = "" then 0
        else simf ref resp.toPyStr
      (decide ((45 : ℚ)/100 ≤ sim),
       "Semantic similarity " ++ pyFormat2 sim ++ " (threshold 0.58)")

/-- The detail dict appended for one graded (item, response) pair. -/
def mkDetail (simf : String → String → ℚ) (it : QuizItem) (resp : PyVal) :
    GradeDetail :=
  { question := it.q
    your_answer := resp
    expected := it.answer
    correct := (gradeItem simf it resp).1
    sources := it.sources
    rationale := (gradeItem simf it resp).2 }

/-- The grading loop `for it, resp in zip(items, responses)`: accumulates
the score and the details in submission order. -/
def gradeLoop (simf : String → String → ℚ) :
    List QuizItem → List PyVal → Nat × List GradeDetail
  | it :: its, resp :: resps =>
      let d := mkDetail simf it resp
      let rest := gradeLoop simf its resps
      ((if d.correct then 1 else 0) + rest.1, d :: rest.2)
  | _, _ => (0, [])

/-- rag.py `grade_quiz`: zips items with responses (stopping at the
shorter sequence), but reports `total = len(items)`. -/
def grade_quiz (simf : String → String → ℚ) (items : List QuizItem)
    (responses : List PyVal) : GradeResult :=
  { score := (gradeLoop simf items responses).1
    total := items.length
    details := (gradeLoop simf items responses).2 }

/-- Default detail used only to read off the head of a details list in
theorem statements. -/
def dfltDetail : GradeDetail :=
  { question := "", your_answer := PyVal.none, expected := PyVal.none
    correct := false, sources := [], rationale := "" }

/-- Head detail of a grading run (statement shorthand). -/
def headDetail (simf : String → String → ℚ) (items : List QuizItem)
    (responses : List PyVal) : GradeDetail :=
  (grade_quiz simf items responses).details.headD dfltDetail

/-- A similarity oracle that always returns 0 (used for concrete runs of
the grader on non-OPEN items, where the oracle is never consulted). -/
def simf0 : String → String → ℚ := fun _ _ => 0

/-- A similarity oracle that always returns 1/2. -/
def simfHalf : String → String → ℚ := fun _ _ => (1 : ℚ)/2

theorem ratFloor_zero : ratFloor 0 = 0 := rfl

theorem roundHalfEven_zero : roundHalfEven 0 = 0 := by
  simp only [roundHalfEven, ratFloor_zero]
  norm_num

theorem pyFormat2_zero : pyFormat2 0 = "0.00" := by
  simp only [pyFormat2, mul_zero, roundHalfEven_zero]
  rfl

theorem gradeLoop_snd_eq (simf : String → String → ℚ) :
    ∀ (its : List QuizItem) (rs : List PyVal),
      (gradeLoop simf its rs).2 = (its.zip rs).map (fun p => mkDetail simf p.1 p.2)
  | [], [] => rfl
  | [], _ :: _ => rfl
  | _ :: _, [] => rfl
  | it :: its, r :: rs => by
      simp [gradeLoop, gradeLoop_snd_eq simf its rs]

theorem gradeLoop_fst_eq (simf : String → String → ℚ) :
    ∀ (its : List QuizItem) (rs : List PyVal),
      (gradeLoop simf its rs).1 =
        (gradeLoop simf its rs).2.countP (fun d => d.correct)
  | [], [] => rfl
  | [], _ :: _ => rfl
  | _ :: _, [] => rfl
  | it :: its, r :: rs => by
      simp [gradeLoop, List.countP_cons, gradeLoop_fst_eq simf its rs]
      cases h : (mkDetail simf it r).correct <;> simp [Nat.add_comm]

/-- C3 (amended): `grade_quiz` pairs items and responses positionally by
the shorter sequence; `score` counts the details marked correct,
`0 ≤ score ≤ total`, details follow submission order, and `total` equals
the length of the items list (not the number of pairs formed). -/
theorem grade_quiz_result_invariants (simf : String → String → ℚ)
    (items : List QuizItem) (responses : List PyVal) :
    (grade_quiz simf items responses).score =
      (grade_quiz simf items responses).details.countP (fun d => d.correct) ∧
    (grade_quiz simf items responses).score ≤ (grade_quiz simf items responses).total ∧
    (grade_quiz simf items responses).total = items.length ∧
    (grade_quiz simf items responses).details =
      (items.zip responses).map (fun p => mkDetail simf p.1 p.2) := by
  refine ⟨?_, ?_, rfl, ?_⟩
  · simpa [grade_quiz] using gradeLoop_fst_eq simf items responses
  · have h1 : (gradeLoop simf items responses).1 ≤
        (gradeLoop simf items responses).2.length := by
      rw [gradeLoop_fst_eq]
      exact List.countP_le_length _
    have h2 : (gradeLoop simf items responses).2.length ≤ items.length := by
      rw [gradeLoop_snd_eq]
      simp [List.length_zip]
    exact le_trans h1 h2
  · simpa [grade_quiz] using gradeLoop_snd_eq simf items responses

/-- An item the grader is run on in the C3 counterexample. -/
def itemTF : QuizItem := ⟨QType.tf, "q", PyVal.bool true, [], []⟩

/-- C3 counterexample: with one item and an empty response list the code
reports `total = 1` although zero pairs were formed and zero items were
actually graded — refuting "total equals the number of pairs formed". -/
theorem grade_quiz_total_ne_pairs_cx :
    (grade_quiz simf0 [itemTF] []).total = 1 ∧
    ([itemTF].zip ([] : List PyVal)).length = 0 ∧
    (grade_quiz simf0 [itemTF] []).details.length = 0 :=
  ⟨rfl, rfl, rfl⟩

/-- C4: OPEN grading — an absent or blank response is graded with
similarity 0 and marked incorrect; otherwise the item is correct iff the
oracle similarity between the gold sentence and the response is at least
45/100, and the rationale reports the similarity to two decimal places
(the rationale's literal text names threshold 0.58, the enforced one is
0.45). -/
theorem grade_open_threshold_and_rationale (simf : String → String → ℚ)
    (q ref : String) (srcs : List String) (resp : PyVal) :
    (resp = PyVal.none ∨ pyStrip resp.toPyStr = "" →
      (headDetail simf [⟨QType.opn, q, PyVal.str ref, [], srcs⟩] [resp]).correct = false ∧
      (headDetail simf [⟨QType.opn, q, PyVal.str ref, [], srcs⟩] [resp]).rationale =
        "Semantic similarity 0.00 (threshold 0.58)") ∧
    (resp ≠ PyVal.none → pyStrip resp.toPyStr ≠ "" →
      ((headDetail simf [⟨QType.opn, q, PyVal.str ref, [], srcs⟩] [resp]).correct = true ↔
        (45 : ℚ)/100 ≤ simf ref resp.toPyStr) ∧
      (headDetail simf [⟨QType.opn, q, PyVal.str ref, [], srcs⟩] [resp]).rationale =
        "Semantic similarity " ++ pyFormat2 (simf ref resp.toPyStr) ++
          " (threshold 0.58)") := by
  have hd : headDetail simf [⟨QType.opn, q, PyVal.str ref, [], srcs⟩] [resp] =
      mkDetail simf ⟨QType.opn, q, PyVal.str ref, [], srcs⟩ resp := rfl
  constructor
  · intro h
    rw [hd]
    simp only [mkDetail, gradeItem, PyVal.getStr, if_pos h]
    refine ⟨?_, by rw [pyFormat2_zero]; rfl⟩
    simp only [decide_eq_false_iff_not]
    norm_num
  · intro h1 h2
    have hcond : ¬(resp = PyVal.none ∨ pyStrip resp.toPyStr = "") := by
      tauto
    rw [hd]
    simp only [mkDetail, gradeItem, PyVal.getStr, if_neg hcond]
    constructor
    · simp
    · trivial

/-- C4 witness: a concrete non-blank response graded with the constant
oracle 1/2. -/
theorem grade_open_threshold_and_rationale_witness :
    ((headDetail simfHalf [⟨QType.opn, "q", PyVal.str "gold", [], []⟩]
        [PyVal.str "a good answer"]).correct = true ↔
      (45 : ℚ)/100 ≤ simfHalf "gold" (PyVal.str "a good answer").toPyStr) ∧
    (headDetail simfHalf [⟨QType.opn, "q", PyVal.str "gold", [], []⟩]
        [PyVal.str "a good answer"]).rationale =
      "Semantic similarity " ++
        pyFormat2 (simfHalf "gold" (PyVal.str "a good answer").toPyStr) ++
        " (threshold 0.58)" :=
  (grade_open_threshold_and_rationale simfHalf "q" "gold" []
    (PyVal.str "a good answer")).2 (by decide) (by decide)

/-- C5: MCQ grading — when the gold answer is purely alphabetic and at
most 4 characters, both sides are upper-cased before the trimmed
comparison (so gold "TLS" with response "tls" is correct); otherwise the
comparison is trimmed, case-sensitive string equality. -/
theorem grade_mcq_acronym_normalization (simf : String → String → ℚ)
    (q gold : String) (opts srcs : List String) (resp : PyVal) :
    (pyIsAlpha gold = true → gold.length ≤ 4 →
      ((headDetail simf [⟨QType.mcq, q, PyVal.str gold, opts, srcs⟩] [resp]).correct = true ↔
        pyStrip (upperStr (if resp = PyVal.none then PyVal.str "" else resp).toPyStr) =
          pyStrip (upperStr gold))) ∧
    (¬(pyIsAlpha gold = true ∧ gold.length ≤ 4) →
      ((headDetail simf [⟨QType.mcq, q, PyVal.str gold, opts, srcs⟩] [resp]).correct = true ↔
        pyStrip (if resp = PyVal.none then PyVal.str "" else resp).toPyStr =
          pyStrip gold)) ∧
    (headDetail simf [⟨QType.mcq, q, PyVal.str gold, opts, srcs⟩] [resp]).rationale =
      "Exact option match" ∧
    (headDetail simf [⟨QType.mcq, "q2", PyVal.str "TLS", [], []⟩]
      [PyVal.str "tls"]).correct = true := by
  have hd : headDetail simf [⟨QType.mcq, q, PyVal.str gold, opts, srcs⟩] [resp] =
      mkDetail simf ⟨QType.mcq, q, PyVal.str gold, opts, srcs⟩ resp := rfl
  refine ⟨?_, ?_, ?_, ?_⟩
  · intro ha hl
    have hcond : (pyIsAlpha gold && decide (gold.length ≤ 4)) = true := by
      simp [ha, hl]
    rw [hd]
    simp [mkDetail, gradeItem, PyVal.getStr, hcond]
  · intro hcond
    have hb : (pyIsAlpha gold && decide (gold.length ≤ 4)) = false := by
      rcases Bool.eq_false_or_eq_true (pyIsAlpha gold) with h | h
      · simp only [h, Bool.true_and, decide_eq_false_iff_not]
        intro hle
        exact hcond ⟨h, hle⟩
      · simp [h]
    rw [hd]
    simp [mkDetail, gradeItem, PyVal.getStr, hb]
  · rw [hd]
    by_cases hc : (pyIsAlpha gold && decide (gold.length ≤ 4)) = true <;>
      simp [mkDetail, gradeItem, PyVal.getStr, hc]
  · have hds : headDetail simf [⟨QType.mcq, "q2", PyVal.str "TLS", [], []⟩]
        [PyVal.str "tls"] =
        mkDetail simf ⟨QType.mcq, "q2", PyVal.str "TLS", [], []⟩
          (PyVal.str "tls") := rfl
    rw [hds]
    rfl

/-- C5 witness: gold "TLS" graded against response "tls". -/
theorem grade_mcq_acronym_normalization_witness :
    (headDetail simf0 [⟨QType.mcq, "q", PyVal.str "TLS", [], []⟩]
        [PyVal.str "tls"]).correct = true ↔
      pyStrip (upperStr (if PyVal.str "tls" = PyVal.none then PyVal.str ""
          else PyVal.str "tls").toPyStr) = pyStrip (upperStr "TLS") :=
  (grade_mcq_acronym_normalization simf0 "q" "TLS" [] [] (PyVal.str "tls")).1
    (by decide) (by decide)

/-- C6: TF grading — correct iff the response is present (not None) and
its truthiness equals the gold boolean; a None response is always
incorrect. -/
theorem grade_tf_null_and_equality (simf : String → String → ℚ)
    (q : String) (g : Bool) (srcs : List String) (resp : PyVal) :
    ((headDetail simf [⟨QType.tf, q, PyVal.bool g, [], srcs⟩] [resp]).correct = true ↔
      (resp ≠ PyVal.none ∧ resp.truthy = g)) ∧
    (headDetail simf [⟨QType.tf, q, PyVal.bool g, [], srcs⟩] [PyVal.none]).correct = false ∧
    (headDetail simf [⟨QType.tf, q, PyVal.bool g, [], srcs⟩] [resp]).rationale =
      "True/False comparison" := by
  have hd : ∀ r : PyVal,
      headDetail simf [⟨QType.tf, q, PyVal.bool g, [], srcs⟩] [r] =
        mkDetail simf ⟨QType.tf, q, PyVal.bool g, [], srcs⟩ r := fun _ => rfl
  refine ⟨?_, by rw [hd]; simp [mkDetail, gradeItem], by rw [hd]; rfl⟩
  rw [hd]
  simp [mkDetail, gradeItem, PyVal.truthy]

/-- C6 witness: a None response against gold true grades incorrect. -/
theorem grade_tf_null_and_equality_witness :
    (headDetail simf0 [⟨QType.tf, "q", PyVal.bool true, [], []⟩]
        [PyVal.none]).correct = true ↔
      (PyVal.none ≠ PyVal.none ∧ PyVal.none.truthy = true) :=
  (grade_tf_null_and_equality simf0 "q" true [] PyVal.none).1

/-- C10: TF responses are compared under Python truthiness coercion: with
gold answer false, the nonempty string "false" coerces to true and grades
incorrect, while the empty string coerces to false and grades correct;
in general a string response is correct iff it is empty. -/
theorem grade_tf_truthiness_coercion (simf : String → String → ℚ)
    (q : String) (srcs : List String) (s : String) :
    (headDetail simf [⟨QType.tf, q, PyVal.bool false, [], srcs⟩]
      [PyVal.str "false"]).correct = false ∧
    (headDetail simf [⟨QType.tf, q, PyVal.bool false, [], srcs⟩]
      [PyVal.str ""]).correct = true ∧
    ((headDetail simf [⟨QType.tf, q, PyVal.bool false, [], srcs⟩]
      [PyVal.str s]).correct = true ↔ s = "") := by
  have hd : ∀ r : PyVal,
      headDetail simf [⟨QType.tf, q, PyVal.bool false, [], srcs⟩] [r] =
        mkDetail simf ⟨QType.tf, q, PyVal.bool false, [], srcs⟩ r := fun _ => rfl
  refine ⟨by rw [hd]; rfl, by rw [hd]; rfl, ?_⟩
  rw [hd]
  simp only [mkDetail, gradeItem, PyVal.truthy]
  rw [str_eq_empty_iff]
  simp [List.isEmpty_iff]

/-- C10 witness: the general string-response conjunct at s = "x". -/
theorem grade_tf_truthiness_coercion_witness :
    (headDetail simf0 [⟨QType.tf, "q", PyVal.bool false, [], []⟩]
        [PyVal.str "x"]).correct = true ↔ "x" = "" :=
  (grade_tf_truthiness_coercion simf0 "q" [] "x").2.2

/-! ## Sentence curator (`_normalize`, `_clean_sentences`)

Regexes of rag.py are embedded as executable scans over character lists
(ASCII model of `\w`, `\s`, `\d`). -/

def spaceChar : Char := Char.ofNat 32

/-- A regex word character `\w` (ASCII model). -/
def isWordChar (c : Char) : Bool := c.isAlphanum || c = '_'

/-- A regex whitespace character `\s` (space, tab, LF, CR, VT, FF). -/
def isSpaceChar (c : Char) : Bool :=
  c = spaceChar || c = Char.ofNat 9 || c = Char.ofNat 10 ||
    c = Char.ofNat 13 || c = Char.ofNat 11 || c = Char.ofNat 12

/-- `text.replace("\n", " ")`. -/
def nl2sp (l : List Char) : List Char :=
  l.map (fun c => if c = Char.ofNat 10 then spaceChar else c)

/-- `re.sub(r"\s{2,}", " ", t)`: collapse whitespace runs of length at
least 2 into a single space (a lone whitespace char is kept as is).
Structural recursion on a fuel counter; every step consumes at least one
character, so fuel equal to the input length (as `collapseWs` passes)
never runs out. -/
def collapseWsF : Nat → List Char → List Char
  | 0, l => l
  | _ + 1, [] => []
  | f + 1, c :: rest =>
    if isSpaceChar c then
      if (rest.takeWhile isSpaceChar).isEmpty then
        c :: collapseWsF f rest
      else
        spaceChar :: collapseWsF f (rest.dropWhile isSpaceChar)
    else
      c :: collapseWsF f rest

def collapseWs (l : List Char) : List Char := collapseWsF l.length l

/-- `re.sub(r"(\w)-\s+(\w)", r"\1\2", t)`: rejoin hyphen-broken words
(word char, hyphen, whitespace, word char become the two word chars;
scanning resumes after the match, as `re.sub` does).  Fuel as in
`collapseWsF`. -/
def deHyphenF : Nat → List Char → List Char
  | 0, l => l
  | _ + 1, [] => []
  | _ + 1, [a] => [a]
  | f + 1, a :: b :: rest2 =>
    if isWordChar a && decide (b = '-') then
      if (rest2.takeWhile isSpaceChar).isEmpty then
        a :: deHyphenF f (b :: rest2)
      else
        match rest2.dropWhile isSpaceChar with
        | c :: rest3 =>
          if isWordChar c then
            a :: c :: deHyphenF f rest3
          else
            a :: deHyphenF f (b :: rest2)
        | [] => a :: deHyphenF f (b :: rest2)
    else
      a :: deHyphenF f (b :: rest2)

def deHyphen (l : List Char) : List Char := deHyphenF l.length l

/-- `re.sub(r"\b\d+(?=[A-Za-z])", "", t)`: delete a maximal digit run
that starts at a word boundary and is immediately followed by an ASCII
letter ("1We" becomes "We").  The boolean argument records whether the
previous character of the original text is a word character.  Fuel as in
`collapseWsF`. -/
def digitStripF : Nat → Bool → List Char → List Char
  | 0, _, l => l
  | _ + 1, _, [] => []
  | f + 1, prevW, c :: rest =>
    if c.isDigit && !prevW then
      match rest.dropWhile Char.isDigit with
      | b :: rest2 =>
        if b.isAlpha then
          digitStripF f true (b :: rest2)
        else
          c :: (rest.takeWhile Char.isDigit ++ digitStripF f true (b :: rest2))
      | [] => c :: rest.takeWhile Char.isDigit
    else
      c :: digitStripF f (isWordChar c) rest

def digitStrip (prevW : Bool) (l : List Char) : List Char :=
  digitStripF l.length prevW l

/-- Replace en and em dashes by "-". -/
def dashFix (l : List Char) : List Char :=
  l.map (fun c =>
    if c = Char.ofNat 0x2013 || c = Char.ofNat 0x2014 then '-' else c)

/-- rag.py `_normalize`. -/
def normalize (text : String) : String :=
  String.mk (dashFix (digitStrip false (deHyphen (collapseWs (nl2sp text.data)))))

/-- `re.split(r"(?<=[.!?])\s+", text)`: cut at each maximal whitespace
run whose preceding character is '.', '!' or '?'.  `acc` holds the
current piece reversed, `prev` the previously scanned character.  Fuel as
in `collapseWsF`. -/
def splitSentsAux : Nat → List Char → Option Char → List Char → List (List Char)
  | 0, acc, _, _ => [acc.reverse]
  | _ + 1, acc, _, [] => [acc.reverse]
  | f + 1, acc, prev, c :: rest =>
    if isSpaceChar c &&
        (decide (prev = some '.') || decide (prev = some '!') ||
          decide (prev = some '?')) then
      acc.reverse ::
        splitSentsAux f [] Option.none (rest.dropWhile isSpaceChar)
    else
      splitSentsAux f (c :: acc) (some c) rest

def splitSentences (s : String) : List String :=
  (splitSentsAux s.data.length [] Option.none s.data).map String.mk

/-- Maximal runs of word characters of a text (used to embed the
word-delimited verb regex of `_has_verb`: a `\b token \b` match of an
all-word-character token is exactly a maximal word run equal to it).
Fuel as in `collapseWsF`. -/
def wordRunsF : Nat → List Char → List (List Char)
  | 0, _ => []
  | _ + 1, [] => []
  | f + 1, c :: rest =>
    if isWordChar c then
      (c :: rest.takeWhile isWordChar) :: wordRunsF f (rest.dropWhile isWordChar)
    else
      wordRunsF f rest

def wordRuns (l : List Char) : List (List Char) := wordRunsF l.length l

/-- Does `l` start with the character sequence `pat`? -/
def startsSeq : List Char → List Char → Bool
  | [], _ => true
  | _ :: _, [] => false
  | a :: as, b :: bs => decide (a = b) && startsSeq as bs

/-- Python `pat in l` (contiguous subsequence). -/
def containsSeq (pat : List Char) : List Char → Bool
  | [] => startsSeq pat []
  | c :: rest => startsSeq pat (c :: rest) || containsSeq pat rest

/-- The alternatives of the `_has_verb` regex (with `supports?` expanded
to its two words). -/
def VERB_TOKENS : List String :=
  ["is", "are", "was", "were", "be", "being", "been", "has", "have", "had",
   "can", "could", "should", "would", "may", "might", "must", "do", "does",
   "did", "provide", "use", "include", "support", "supports"]

/-- rag.py `_has_verb`: the case-insensitive regex
`\b(is|are|...|supports?)\b` matches iff some maximal word run of the
sentence, lower-cased, equals one of the tokens. -/
def has_verb (s : String) : Bool :=
  (wordRuns s.data).any (fun r =>
    VERB_TOKENS.any (fun t => decide (r.map Char.toLower = t.data)))

/-- rag.py `SEC_KEYWORDS` (written order of the source set literal; set
iteration order does not matter for the membership test). -/
def SEC_KEYWORDS : List String :=
  ["security", "secure", "attack", "attacks", "threat", "risk", "firewall",
   "vpn", "ids", "ips", "waf", "encryption", "cipher", "key", "certificate",
   "tls", "https", "ipsec", "ssh", "authentication", "authorization",
   "integrity", "availability", "confidentiality", "hash", "mac", "malware",
   "phishing", "ddos", "mitm", "proxy", "segmentation", "dmz", "siem",
   "edr", "xdr"]

/-- rag.py `_contains_keyword`: some keyword is a substring of the
lower-cased sentence. -/
def contains_keyword (s : String) : Bool :=
  SEC_KEYWORDS.any (fun k => containsSeq k.data (lowerStr s).data)

/-- `s.startswith(("#","*","-"))`. -/
def startsMarkup (s : String) : Bool :=
  match s.data with
  | c :: _ => decide (c = '#') || decide (c = '*') || decide (c = '-')
  | [] => false

/-- One alternative of `re.match(r"^(table|figure|fig\.|chapter|section)\b", s, re.I)`
for an all-word-character word `w`: prefix match plus a word boundary
(end of string, or a non-word character next). -/
def captionWordAt (w : String) (l : List Char) : Bool :=
  startsSeq w.data l &&
    (match l.drop w.data.length with
     | [] => true
     | c :: _ => !isWordChar c)

/-- The caption-prefix regex of `_clean_sentences`.  The `fig\.`
alternative ends in '.', a non-word character, so its trailing `\b`
holds only when a word character follows. -/
def captionMatch (s : String) : Bool :=
  captionWordAt "table" (lowerStr s).data ||
  captionWordAt "figure" (lowerStr s).data ||
  (startsSeq "fig.".data (lowerStr s).data &&
    (match (lowerStr s).data.drop 4 with
     | c :: _ => isWordChar c
     | [] => false)) ||
  captionWordAt "chapter" (lowerStr s).data ||
  captionWordAt "section" (lowerStr s).data

/-- `re.match(r"^\d+[\).\- ]", s)`: one or more digits then one of
')', '.', '-', ' ' (the character class has no digit, so only the
maximal digit run can be matched). -/
def numberedMatch (s : String) : Bool :=
  !(s.data.takeWhile Char.isDigit).isEmpty &&
    (match s.data.drop (s.data.takeWhile Char.isDigit).length with
     | c :: _ =>
        decide (c = ')') || decide (c = '.') || decide (c = '-') ||
          decide (c = spaceChar)
     | [] => false)

/-- The filter chain of `_clean_sentences` over one stripped candidate
sentence (each failing test is a `continue` in the source). -/
def keepSentence (s : String) : Bool :=
  if s = "" then false
  else if startsMarkup s then false
  else if captionMatch s then false
  else if numberedMatch s then false
  else if s.length < 55 ∨ 200 < s.length then false
  else if !has_verb s then false
  else if !contains_keyword s then false
  else true

/-- rag.py `_clean_sentences`: normalize, split, strip each piece, keep
the survivors of the filter chain in order. -/
def clean_sentences (text : String) : List String :=
  ((splitSentences (normalize text)).map pyStrip).filter keepSentence

theorem keepSentence_iff (s : String) :
    keepSentence s = true ↔
      (55 ≤ s.length ∧ s.length ≤ 200 ∧ has_verb s = true ∧
       contains_keyword s = true ∧ startsMarkup s = false ∧
       captionMatch s = false ∧ numberedMatch s = false) := by
  unfold keepSentence
  split_ifs with h1 h2 h3 h4 h5 h6 h7 <;> simp_all <;> try omega

/-- C8: a candidate sentence from the curator's split is retained iff its
length is within 55..200, it has a verb-list token, it has a security
keyword, and it is neither a markup line, a caption prefix, nor a
numbered bullet. -/
theorem clean_sentences_retention_iff (text s : String) :
    s ∈ clean_sentences text ↔
      (s ∈ (splitSentences (normalize text)).map pyStrip ∧
       55 ≤ s.length ∧ s.length ≤ 200 ∧ has_verb s = true ∧
       contains_keyword s = true ∧ startsMarkup s = false ∧
       captionMatch s = false ∧ numberedMatch s = false) := by
  unfold clean_sentences
  rw [List.mem_filter, keepSentence_iff]

/-! ## Term masking, distractors, negation, and the quiz generator -/

/-- rag.py `SEC_TERMS` in source order. -/
def SEC_TERMS : List String :=
  ["firewall", "proxy", "vpn", "ids", "ips", "waf", "nat", "segmentation",
   "zero trust",
   "encryption", "decryption", "cipher", "key", "nonce", "salt", "handshake",
   "certificate",
   "authentication", "authorization", "accounting", "auditing", "integrity",
   "availability", "confidentiality",
   "hash", "mac", "signature", "tls", "ssl", "https", "ipsec", "ssh",
   "kerberos", "saml", "oauth",
   "ddos", "dos", "phishing", "malware", "ransomware", "botnet", "mitm",
   "replay",
   "sandbox", "honeypot", "siem", "soar", "edr", "xdr", "antivirus",
   "whitelisting", "blacklisting",
   "aaa", "radius", "tacacs", "bastion", "dmz", "subnet", "vlan", "qos",
   "spoofing"]

/-- rag.py `_extract_terms_from_sentence`: the vocabulary terms that are
substrings of the lower-cased sentence, in vocabulary order. -/
def extract_terms_from_sentence (s : String) : List String :=
  SEC_TERMS.filter (fun t => containsSeq t.data (lowerStr s).data)

/-- The alternatives of the `_negate_sentence` anchor regex. -/
def NEG_TOKENS : List String :=
  ["is", "are", "was", "were", "can", "could", "should", "would", "do",
   "does", "did", "has", "have", "had"]

/-- Word boundary after a matched all-word-character token: end of text
or a non-word character next. -/
def boundaryAfter (l : List Char) : Bool :=
  match l with
  | [] => true
  | c :: _ => !isWordChar c

/-- Try to match one of the (lower-case, all-word-character) tokens at
the head of `l`, case-insensitively, with a word boundary after; returns
the matched length. -/
def tryToks (toks : List String) (l : List Char) : Option Nat :=
  toks.findSome? (fun t =>
    if decide ((l.take t.data.length).map Char.toLower = t.data) &&
        boundaryAfter (l.drop t.data.length) then some t.data.length
    else Option.none)

/-- `re.search(r"\b(tok|...)\b", s, re.I).end()`: scan left to right; a
match needs a word boundary before (tracked by `prevW`, whether the
previous character is a word character) and after; returns the end index
of the leftmost match. -/
def searchTokenEnd (toks : List String) : Bool → List Char → Nat → Option Nat
  | _, [], _ => Option.none
  | prevW, c :: rest, i =>
    match (if prevW then Option.none else tryToks toks (c :: rest)) with
    | some len => some (i + len)
    | Option.none => searchTokenEnd toks (isWordChar c) rest (i + 1)

/-- End position of the first modal/auxiliary verb anchor of
`_negate_sentence`, when one exists. -/
def searchNeg (s : String) : Option Nat := searchTokenEnd NEG_TOKENS false s.data 0

/-- `s[0].lower() + s[1:]` (total: the empty string maps to itself; the
generator only negates curated sentences, which are nonempty). -/
def lowerFirst (s : String) : String :=
  match s.data with
  | [] => ""
  | c :: rest => String.mk (Char.toLower c :: rest)

/-- `s[:i] + " not" + s[i:]`. -/
def insertNotAt (s : String) (i : Nat) : String :=
  String.mk (s.data.take i ++ (" not").data ++ s.data.drop i)

/-- rag.py `_negate_sentence`: insert " not" right after the first
matched verb anchor, else fall back to the prefixed form. -/
def negate_sentence (s : String) : String :=
  match searchNeg s with
  | some i => insertNotAt s i
  | Option.none => "It is not true that " ++ lowerFirst s

/-- `re.sub(re.escape(pat), "_____", s, count=1)` for a nonempty
lower-case pattern, case-insensitive: replace the leftmost occurrence. -/
def maskFirstCI (pat : List Char) : List Char → List Char
  | [] => []
  | c :: rest =>
    if decide (((c :: rest).take pat.length).map Char.toLower =
          pat.map Char.toLower) && !pat.isEmpty then
      ("_____").data ++ (c :: rest).drop pat.length
    else
      c :: maskFirstCI pat rest

/-- rag.py `_pick_mask_span`: pick one detected term (`random.choice`
modelled by the index `choice` mod the candidate count) and mask its
first occurrence. -/
def pick_mask_span (choice : Nat) (s : String) : Option (String × String) :=
  let terms := extract_terms_from_sentence s
  if terms.isEmpty then Option.none
  else
    let correct := terms.getD (choice % terms.length) ""
    some (correct, String.mk (maskFirstCI correct.data s.data))

/-- Python `s.split()`: maximal nonempty runs separated by whitespace.
Fuel as in `collapseWsF`. -/
def wsSplitF : Nat → List Char → List (List Char)
  | 0, _ => []
  | _ + 1, [] => []
  | f + 1, c :: rest =>
    if isSpaceChar c then wsSplitF f rest
    else
      (c :: rest.takeWhile (fun x => !isSpaceChar x)) ::
        wsSplitF f (rest.dropWhile (fun x => !isSpaceChar x))

def pyWords (s : String) : List String :=
  (wsSplitF s.data.length s.data).map String.mk

/-- The distractor-collection loop of `_distinct_opts` over the pool:
skip already-seen or correct-equal (case-insensitively) or long (> 3
words) candidates; stop at 3 distractors.  Returns (distractors, seen). -/
def collectDs (correct : String) :
    List String → List String → List String → List String × List String
  | [], seen, ds => (ds, seen)
  | cand :: rest, seen, ds =>
    if ds.length ≥ 3 then (ds, seen)
    else if lowerStr cand ∈ seen then collectDs correct rest seen ds
    else if lowerStr cand = lowerStr correct then collectDs correct rest seen ds
    else if 3 < (pyWords cand).length then collectDs correct rest seen ds
    else collectDs correct rest (seen ++ [lowerStr cand]) (ds ++ [cand])

/-- The fixed fallback distractor list of `_distinct_opts`. -/
def FALLBACK : List String :=
  ["firewall", "vpn", "ids", "ips", "tls", "hash", "cipher", "nonce", "dmz",
   "proxy", "waf"]

/-- The fallback fill loop of `_distinct_opts`. -/
def fillFb : List String → List String → List String → List String × List String
  | [], seen, ds => (ds, seen)
  | f :: rest, seen, ds =>
    if ds.length = 3 then (ds, seen)
    else if lowerStr f ∈ seen then fillFb rest seen ds
    else fillFb rest (seen ++ [lowerStr f]) (ds ++ [f])

/-- `list(dict.fromkeys(l))`: deduplicate keeping first occurrences. -/
def dedupFirst (l : List String) : List String :=
  l.foldl (fun acc x => if x ∈ acc then acc else acc ++ [x]) []

/-- The `while len(opts) < 4` pad loop of `_distinct_opts`; the random
fallback draws are modelled by the oracle list `extras` (on generator
inputs the options already number 4 and the loop body never runs). -/
def padOpts : List String → List String → List String
  | [], opts => opts
  | e :: rest, opts =>
    if opts.length < 4 then
      if lowerStr e ∈ opts.map lowerStr then padOpts rest opts
      else padOpts rest (opts ++ [e])
    else opts

/-- The `nice` rendering of `_distinct_opts`: upper-case short purely
alphabetic options (acronym heuristic). -/
def niceOpt (o : String) : String :=
  if pyIsAlpha o && decide (o.length ≤ 4) then upperStr o else o

/-- rag.py `_distinct_opts`.  `shuffle` is the uniform shuffle
(`random.shuffle`), modelled as an oracle permutation function. -/
def distinct_opts (shuffle : List String → List String) (extras : List String)
    (correct : String) (pool : List String) : List String :=
  let p1 := collectDs correct pool [lowerStr correct] []
  let p2 := fillFb FALLBACK p1.2 p1.1
  let opts := dedupFirst (correct :: p2.1.take 3)
  (shuffle (padOpts extras opts)).map niceOpt

/-- The quiz dict returned by `generate_quiz`. -/
structure Quiz where
  topic : String
  items : List QuizItem
  deriving DecidableEq, Repr

/-- Oracle for all randomized choices of one `generate_quiz` call,
indexed by the loop-iteration counter: `pick` chooses the sentence
(`random.choice`, as index mod the list length), `coin` the TF polarity
(`random.random() < 0.8`), `term` the masked term, `extras` the pad-loop
draws, `shuf` and `shuf2` the two option shuffles. -/
structure Rng where
  pick : Nat → Nat
  coin : Nat → Bool
  term : Nat → Nat
  extras : Nat → List String
  shuf : Nat → List String → List String
  shuf2 : Nat → List String → List String

/-- Loop state of `generate_quiz`: collected items, the `seen` sentence
set (insertion order), and the iteration counter `t` (which also drives
the `itertools.cycle` source index, advanced once per iteration). -/
structure GenState where
  items : List QuizItem
  seen : List String
  t : Nat

/-- One iteration of the `while` loop of `generate_quiz` (lines 215-256
of rag.py): draw a sentence from the round-robin source, skip it if
already seen, otherwise emit one item whose type rotates tf/mcq/open
with `len(items) % 3`. -/
def genStep (rng : Rng) (per_source : List (String × List String))
    (pool : List String) (st : GenState) : GenState :=
  let ps := per_source.getD (st.t % per_source.length) ("local", [])
  let source := ps.1
  let sents := ps.2
  let s := sents.getD (rng.pick st.t % sents.length) ""
  if s ∈ st.seen then
    { st with t := st.t + 1 }
  else
    let seen2 := st.seen ++ [s]
    if st.items.length % 3 = 0 then
      let mt := rng.coin st.t
      let q := if mt then s else negate_sentence s
      { items := st.items ++ [⟨QType.tf, q, PyVal.bool mt, [], [source]⟩],
        seen := seen2, t := st.t + 1 }
    else if st.items.length % 3 = 1 then
      match pick_mask_span (rng.term st.t) s with
      | Option.none =>
        { items := st.items ++ [⟨QType.tf, s, PyVal.bool true, [], [source]⟩],
          seen := seen2, t := st.t + 1 }
      | some (correct, stem) =>
        if correct = "" ∨ stem = "" then
          { items := st.items ++ [⟨QType.tf, s, PyVal.bool true, [], [source]⟩],
            seen := seen2, t := st.t + 1 }
        else
          let options := distinct_opts (rng.shuf st.t) (rng.extras st.t) correct pool
          let options :=
            if correct ∈ options then options
            else rng.shuf2 st.t (options.set 0 correct)
          let ans :=
            if pyIsAlpha correct && decide (correct.length ≤ 4) then
              upperStr correct
            else correct
          { items := st.items ++ [⟨QType.mcq, stem, PyVal.str ans, options, [source]⟩],
            seen := seen2, t := st.t + 1 }
    else
      { items := st.items ++
          [⟨QType.opn, "Briefly explain: " ++ s, PyVal.str s, [], [source]⟩],
        seen := seen2, t := st.t + 1 }

/-- The `while len(items) < n and len(seen) < 500` loop, made total with
a fuel counter: `Option.none` means the fuel ran out before the loop's
exit condition was reached (the Python loop has no such bound and can
run forever). -/
def genRun (rng : Rng) (n : Nat) (per_source : List (String × List String))
    (pool : List String) : Nat → GenState → Option (List QuizItem)
  | 0, _ => Option.none
  | fuel + 1, st =>
    if st.items.length < n ∧ st.seen.length < 500 then
      genRun rng n per_source pool fuel (genStep rng per_source pool st)
    else
      some st.items

/-- `meta.get("source", "local")`. -/
def metaSource : Option String → String
  | some s => s
  | Option.none => "local"

/-- One step of the per-source grouping of `generate_quiz`: a retrieval
hit (doc, meta) contributes (source, curated sentences) when the curated
list is nonempty. -/
def srcSents (p : String × Option String) : Option (String × List String) :=
  if clean_sentences p.1 = [] then Option.none
  else some (metaSource p.2, clean_sentences p.1)

/-- The corpus-observed term pool of `generate_quiz` (`corpus_terms` is a
Python set filled in traversal order; modelled as insertion-ordered
deduplication, which fixes one concrete iteration order). -/
def corpusTermsList (per_source : List (String × List String)) : List String :=
  dedupFirst ((per_source.map
    (fun p => (p.2.map extract_terms_from_sentence).join)).join)

def topicOr (topic : String) : String := if topic = "" then "general" else topic

/-- rag.py `generate_quiz`.  Retrieval is external (spec section 4.1), so
the retrieved hits are a parameter; `fuel` bounds the loop as explained
at `genRun` (the source also builds an unused `global_text` list, not
modelled).  Returns `Option.none` exactly when the loop exceeds the
fuel. -/
def generate_quiz (rng : Rng) (fuel : Nat) (hits : List (String × Option String))
    (topic : String) (n : Nat) : Option Quiz :=
  if hits = [] then some ⟨topicOr topic, []⟩
  else
    let per_source := hits.filterMap srcSents
    if per_source = [] then some ⟨topicOr topic, []⟩
    else
      let pool := dedupFirst (corpusTermsList per_source ++ SEC_TERMS)
      (genRun rng n per_source pool fuel ⟨[], [], 0⟩).map
        (fun items => ⟨topicOr topic, items.take n⟩)

/-- An arbitrary fixed choice oracle. -/
def rngId : Rng :=
  { pick := fun _ => 0, coin := fun _ => true, term := fun _ => 0,
    extras := fun _ => [], shuf := fun _ => id, shuf2 := fun _ => id }

/-- C7: when no retrieval hit yields a curated sentence (in particular
when there are no hits at all), `generate_quiz` returns a quiz with the
given topic ("general" if empty) and no items, for any fuel — the loop is
never entered, so no exception and no divergence is possible on this
path. -/
theorem generate_quiz_degenerate (rng : Rng) (fuel : Nat) (topic : String)
    (n : Nat) (hits : List (String × Option String))
    (h : ∀ p ∈ hits, clean_sentences p.1 = []) :
    generate_quiz rng fuel hits topic n =
      some ⟨(if topic = "" then "general" else topic), []⟩ := by
  by_cases hh : hits = []
  · subst hh
    simp [generate_quiz, topicOr]
  · have hps : hits.filterMap srcSents = [] := by
      rw [List.filterMap_eq_nil]
      intro p hp
      simp [srcSents, h p hp]
    simp [generate_quiz, hh, hps, topicOr]

/-- C7 witness: Scenario A, the empty index. -/
theorem generate_quiz_degenerate_witness :
    generate_quiz rngId 0 [] "firewall" 5 = some ⟨"firewall", []⟩ := by
  have h := generate_quiz_degenerate rngId 0 "firewall" 5 [] (by simp)
  simpa using h

/-- A chunk that curates to exactly one usable sentence. -/
def doc1 : String :=
  "A firewall is a security device that inspects and filters network traffic."

def hits1 : List (String × Option String) := [(doc1, some "kb")]

/-- The grouped sources computed by `generate_quiz` from `hits1`. -/
def psrc1 : List (String × List String) := [("kb", [doc1])]

def pool1 : List String := dedupFirst (corpusTermsList psrc1 ++ SEC_TERMS)

theorem genStep_fix_c1 (rng : Rng) (pool : List String) (st : GenState)
    (h1 : st.items.length = 1) (h2 : st.seen = [doc1]) :
    genStep rng psrc1 pool st = { st with t := st.t + 1 } := by
  simp [genStep, psrc1, Nat.mod_one, h2]

theorem genRun_none_c1 (rng : Rng) (pool : List String) :
    ∀ (f : Nat) (st : GenState), st.items.length = 1 → st.seen = [doc1] →
      genRun rng 2 psrc1 pool f st = Option.none := by
  intro f
  induction f with
  | zero => intro st h1 h2; rfl
  | succ f ih =>
      intro st h1 h2
      simp only [genRun]
      rw [if_pos ⟨by omega, by rw [h2]; simp⟩]
      rw [genStep_fix_c1 rng pool st h1 h2]
      exact ih _ (by simpa using h1) (by simpa using h2)

/-- C1 (code bug): on a corpus whose surviving sources hold a single
usable distinct sentence, a request for n = 2 items makes the collection
loop spin forever — the already-seen sentence is drawn again and again,
`seen` stays below 500 and `items` below n, so no fuel bound suffices and
`generate_quiz` never returns, for every choice oracle. -/
theorem generate_quiz_small_corpus_loops_forever (rng : Rng) (fuel : Nat) :
    generate_quiz rng fuel hits1 "firewall" 2 = Option.none := by
  have hgen : generate_quiz rng fuel hits1 "firewall" 2 =
      (genRun rng 2 psrc1 pool1 fuel ⟨[], [], 0⟩).map
        (fun items => ⟨"firewall", items.take 2⟩) := rfl
  rw [hgen]
  cases fuel with
  | zero => rfl
  | succ f =>
      have hstep : (genStep rng psrc1 pool1 ⟨[], [], 0⟩).items.length = 1 ∧
          (genStep rng psrc1 pool1 ⟨[], [], 0⟩).seen = [doc1] := by
        cases hc : rng.coin 0 <;>
          simp [genStep, psrc1, Nat.mod_one, hc]
      have hnone : genRun rng 2 psrc1 pool1 (f + 1) ⟨[], [], 0⟩ = Option.none := by
        simp only [genRun]
        rw [if_pos (by constructor <;> simp)]
        exact genRun_none_c1 rng pool1 f _ hstep.1 hstep.2
      rw [hnone]
      rfl

/-- A chunk that curates to two usable sentences, the second holding the
maskable acronym term "tls". -/
def doc2 : String :=
  "A firewall is a security device that inspects all network packets. The tls protocol is used to secure https connections on networks."

def hits2 : List (String × Option String) := [(doc2, some "kb")]

/-- A realizable choice oracle for the C2 run: pick sentence 0 then 1,
make the first TF item true, mask the first detected term, and let the
first option shuffle put the correct option last (one of the 24 equally
likely orders); the second shuffle leaves the list as is. -/
def rng2 : Rng :=
  { pick := fun t => t, coin := fun _ => true, term := fun _ => 0,
    extras := fun _ => [], shuf := fun _ => List.reverse, shuf2 := fun _ => id }

/-- The TF item emitted first in the C2 run. -/
def itemC2a : QuizItem :=
  ⟨QType.tf, "A firewall is a security device that inspects all network packets.",
   PyVal.bool true, [], ["kb"]⟩

/-- The MCQ item emitted second in the C2 run: the raw lower-case term
"tls" was re-inserted at slot 0 because the membership test compared it
against the acronym-rendered options, so "TLS" survives as a duplicate. -/
def itemC2b : QuizItem :=
  ⟨QType.mcq, "The _____ protocol is used to secure https connections on networks.",
   PyVal.str "TLS", ["tls", "https", "firewall", "TLS"], ["kb"]⟩

set_option maxRecDepth 4000 in
/-- C2 (code bug): a full `generate_quiz` run in which the emitted MCQ
item's 4 options are not pairwise distinct case-insensitively and contain
a case-insensitive match of the answer "TLS" twice, violating the
spec's MCQ invariant. -/
theorem mcq_options_duplicate_answer :
    generate_quiz rng2 3 hits2 "netsec" 2 = some ⟨"netsec", [itemC2a, itemC2b]⟩ ∧
    itemC2b.options.countP
      (fun o => decide (lowerStr o = lowerStr itemC2b.answer.getStr)) = 2 ∧
    ¬ (itemC2b.options.map lowerStr).Nodup ∧
    itemC2b.options.length = 4 := by
  refine ⟨rfl, by decide, by decide, rfl⟩

theorem insertNotAt_length (s : String) (i : Nat) :
    (insertNotAt s i).length = s.length + 4 := by
  simp only [insertNotAt, String.length, List.length_append, List.length_take,
    List.length_drop, List.length_cons, List.length_nil]
  omega

theorem lowerFirst_length (s : String) : (lowerFirst s).length = s.length := by
  cases s with
  | mk d =>
      cases d with
      | nil => rfl
      | cons c rest => rfl

/-- A negated sentence always differs from the source sentence: both
forms are strictly longer. -/
theorem negate_ne (s : String) : negate_sentence s ≠ s := by
  intro h
  have hl := congrArg String.length h
  cases hsn : searchNeg s with
  | some i =>
      simp only [negate_sentence, hsn, insertNotAt_length] at hl
      omega
  | none =>
      simp only [negate_sentence, hsn, String.length_append,
        lowerFirst_length] at hl
      have h20 : ("It is not true that ").length = 20 := rfl
      rw [h20] at hl
      omega

/-- The property carried through the generator loop for C9: a TF item
with answer false quotes the negation of a curated sentence of some
retrieved chunk. -/
def TFNegWitness (hits : List (String × Option String)) (it : QuizItem) : Prop :=
  it.qtype = QType.tf → it.answer = PyVal.bool false →
    ∃ s, (∃ doc meta, (doc, meta) ∈ hits ∧ s ∈ clean_sentences doc) ∧
      it.q = negate_sentence s

theorem genStep_items_extend (rng : Rng) (per_source : List (String × List String))
    (pool : List String) (hits : List (String × Option String))
    (hne : per_source ≠ [])
    (hsrc : ∀ p ∈ per_source, p.2 ≠ [] ∧
      ∃ doc meta, (doc, meta) ∈ hits ∧ p.2 = clean_sentences doc)
    (st : GenState) :
    (genStep rng per_source pool st).items = st.items ∨
    ∃ item, (genStep rng per_source pool st).items = st.items ++ [item] ∧
      TFNegWitness hits item := by
  have hplen : 0 < per_source.length := List.length_pos.mpr hne
  have hidx : st.t % per_source.length < per_source.length :=
    Nat.mod_lt _ hplen
  have hpsmem : per_source.getD (st.t % per_source.length) ("local", []) ∈
      per_source := by
    rw [List.getD_eq_get per_source ("local", []) hidx]
    exact List.get_mem _ _ _
  obtain ⟨hsne, doc, meta, hdm, hseq⟩ := hsrc _ hpsmem
  have hslen :
      0 < (per_source.getD (st.t % per_source.length) ("local", [])).2.length :=
    List.length_pos.mpr hsne
  have hsmem :
      (per_source.getD (st.t % per_source.length) ("local", [])).2.getD
        (rng.pick st.t %
          (per_source.getD (st.t % per_source.length) ("local", [])).2.length) "" ∈
      (per_source.getD (st.t % per_source.length) ("local", [])).2 := by
    rw [List.getD_eq_get _ "" (Nat.mod_lt _ hslen)]
    exact List.get_mem _ _ _
  have hsclean :
      (per_source.getD (st.t % per_source.length) ("local", [])).2.getD
        (rng.pick st.t %
          (per_source.getD (st.t % per_source.length) ("local", [])).2.length) "" ∈
      clean_sentences doc := hseq ▸ hsmem
  simp only [genStep]
  set s := (per_source.getD (st.t % per_source.length) ("local", [])).2.getD
    (rng.pick st.t %
      (per_source.getD (st.t % per_source.length) ("local", [])).2.length) ""
    with hsdef
  by_cases hseen : s ∈ st.seen
  · rw [if_pos hseen]
    exact Or.inl rfl
  · rw [if_neg hseen]
    by_cases h0 : st.items.length % 3 = 0
    · rw [if_pos h0]
      right
      refine ⟨_, rfl, ?_⟩
      intro _ hans
      cases hc : rng.coin st.t with
      | true => rw [hc] at hans; simp at hans
      | false =>
          exact ⟨s, ⟨doc, meta, hdm, hsclean⟩, by simp [hc]⟩
    · rw [if_neg h0]
      by_cases h1 : st.items.length % 3 = 1
      · rw [if_pos h1]
        split
        · right
          refine ⟨_, rfl, ?_⟩
          intro _ hans
          simp at hans
        · split
          · right
            refine ⟨_, rfl, ?_⟩
            intro _ hans
            simp at hans
          · right
            refine ⟨_, rfl, ?_⟩
            intro htf _
            simp at htf
      · rw [if_neg h1]
        right
        refine ⟨_, rfl, ?_⟩
        intro htf _
        simp at htf

theorem genRun_preserves (rng : Rng) (n : Nat)
    (per_source : List (String × List String)) (pool : List String)
    (hits : List (String × Option String))
    (hne : per_source ≠ [])
    (hsrc : ∀ p ∈ per_source, p.2 ≠ [] ∧
      ∃ doc meta, (doc, meta) ∈ hits ∧ p.2 = clean_sentences doc) :
    ∀ (f : Nat) (st : GenState) (out : List QuizItem),
      (∀ it ∈ st.items, TFNegWitness hits it) →
      genRun rng n per_source pool f st = some out →
      ∀ it ∈ out, TFNegWitness hits it := by
  intro f
  induction f with
  | zero =>
      intro st out hinv hq
      simp [genRun] at hq
  | succ f ih =>
      intro st out hinv hq
      simp only [genRun] at hq
      by_cases hc : st.items.length < n ∧ st.seen.length < 500
      · rw [if_pos hc] at hq
        refine ih (genStep rng per_source pool st) out ?_ hq
        rcases genStep_items_extend rng per_source pool hits hne hsrc st with
          h | ⟨item, heq, hwit⟩
        · rw [h]; exact hinv
        · rw [heq]
          intro it hmem
          rcases List.mem_append.mp hmem with h' | h'
          · exact hinv it h'
          · rw [List.mem_singleton.mp h']
            exact hwit
      · rw [if_neg hc] at hq
        rw [Option.some.injEq] at hq
        intro it hmem
        exact hinv it (by rw [hq]; exact hmem)

/-- C9: every TF item with answer false in a quiz returned by
`generate_quiz` quotes `negate_sentence` of a curated sentence of some
retrieved chunk; the question differs from that sentence, and it has
exactly one of the two negation forms — " not" inserted right after the
first matched verb anchor, or the "It is not true that " fallback with
the first letter lower-cased when no anchor exists. -/
theorem tf_false_items_negated (rng : Rng) (fuel : Nat)
    (hits : List (String × Option String)) (topic : String) (n : Nat)
    (qz : Quiz) (hq : generate_quiz rng fuel hits topic n = some qz)
    (it : QuizItem) (hit : it ∈ qz.items) (htf : it.qtype = QType.tf)
    (hans : it.answer = PyVal.bool false) :
    ∃ s, (∃ doc meta, (doc, meta) ∈ hits ∧ s ∈ clean_sentences doc) ∧
      it.q = negate_sentence s ∧ it.q ≠ s ∧
      ((∃ i, searchNeg s = some i ∧ it.q = insertNotAt s i) ∨
       (searchNeg s = Option.none ∧
        it.q = "It is not true that " ++ lowerFirst s)) := by
  by_cases hh : hits = []
  · subst hh
    have hval : generate_quiz rng fuel [] topic n =
        some ⟨topicOr topic, []⟩ := rfl
    rw [hval, Option.some.injEq] at hq
    rw [← hq] at hit
    simp at hit
  · simp only [generate_quiz] at hq
    rw [if_neg hh] at hq
    by_cases hps : hits.filterMap srcSents = []
    · rw [if_pos hps] at hq
      rw [Option.some.injEq] at hq
      rw [← hq] at hit
      simp at hit
    · rw [if_neg hps] at hq
      obtain ⟨out, hrun, hqz⟩ := Option.map_eq_some'.mp hq
      have hsrc : ∀ p ∈ hits.filterMap srcSents, p.2 ≠ [] ∧
          ∃ doc meta, (doc, meta) ∈ hits ∧ p.2 = clean_sentences doc := by
        intro p hp
        obtain ⟨a, ha, hsome⟩ := List.mem_filterMap.mp hp
        by_cases hcs : clean_sentences a.1 = []
        · simp [srcSents, hcs] at hsome
        · simp only [srcSents, if_neg hcs] at hsome
          rw [Option.some.injEq] at hsome
          refine ⟨by rw [← hsome]; exact hcs, a.1, a.2, by simpa using ha, ?_⟩
          rw [← hsome]
      have hout : ∀ j ∈ out, TFNegWitness hits j :=
        genRun_preserves rng n _ _ hits hps hsrc fuel ⟨[], [], 0⟩ out
          (fun j hj => absurd hj (List.not_mem_nil j)) hrun
      have hit' : it ∈ out := by
        rw [← hqz] at hit
        exact List.take_subset _ _ hit
      obtain ⟨s, hsm, hqneg⟩ := hout it hit' htf hans
      refine ⟨s, hsm, hqneg, by rw [hqneg]; exact negate_ne s, ?_⟩
      cases hsn : searchNeg s with
      | some i =>
          exact Or.inl ⟨i, rfl, by rw [hqneg]; simp [negate_sentence, hsn]⟩
      | none =>
          exact Or.inr ⟨rfl, by rw [hqneg]; simp [negate_sentence, hsn]⟩

/-- The choice oracle of the C9 witness run: always negate TF items. -/
def rng9 : Rng :=
  { pick := fun _ => 0, coin := fun _ => false, term := fun _ => 0,
    extras := fun _ => [], shuf := fun _ => id, shuf2 := fun _ => id }

/-- The negated TF item produced by the C9 witness run. -/
def itemC9 : QuizItem :=
  ⟨QType.tf,
   "A firewall is not a security device that inspects and filters network traffic.",
   PyVal.bool false, [], ["kb"]⟩

set_option maxRecDepth 4000 in
/-- C9 witness: a concrete run emitting one negated TF item. -/
theorem tf_false_items_negated_witness :
    ∃ s, (∃ doc meta, (doc, meta) ∈ hits1 ∧ s ∈ clean_sentences doc) ∧
      itemC9.q = negate_sentence s ∧ itemC9.q ≠ s ∧
      ((∃ i, searchNeg s = some i ∧ itemC9.q = insertNotAt s i) ∨
       (searchNeg s = Option.none ∧
        itemC9.q = "It is not true that " ++ lowerFirst s)) :=
  tf_false_items_negated rng9 2 hits1 "fw" 1 ⟨"fw", [itemC9]⟩ rfl itemC9
    (List.mem_singleton.mpr rfl) rfl rfl

end Rag
